import Mathlib

/-!
Verification of the reservation/capacity-accounting core of an event-management
web application (Express + Sequelize + PostgreSQL).

The embedding models the database rows (events, reservations) as lists of
records, and the three core operations as pure state transformers translated
from the source controllers:

* `createReservation`  — reservationController.createReservation
* `cancelReservation`  — reservationController.cancelReservation
* `resizeEventCapacity`— eventController.updateEvent, restricted to its
  capacity-handling path (the other updated columns are irrelevant to the
  capacity ledger)
* `createEvent` / `deleteEvent` — eventController.createEvent / deleteEvent,
  restricted to the columns the ledger reads.

`findByPk` / `findOne` become `List.find?`; a Sequelize
`increment`/`decrement` (an atomic `UPDATE ... SET x = x + d`) becomes a
`List.map` that rewrites the matching row; transaction rollback on a failed
precondition becomes returning the input state unchanged.

Machine integers: the columns are PostgreSQL INTEGERs; all arithmetic in the
source stays far below 2^31, so the columns are modelled as `Int` (signed,
no overflow reduction needed) and row ids as `Nat`.
-/

namespace EMS

/-- Requester role, from the `"user" | "admin"` union in types/index.ts. -/
inductive Role where
  | admin
  | user
deriving DecidableEq

/-- ReservationStatus enum from types/index.ts (CONFIRMED / CANCELED). -/
inductive ReservationStatus where
  | confirmed
  | canceled
deriving DecidableEq

/-- One row of the `events` table (columns the capacity core reads).
`eventDate` is a timestamp modelled as an integer instant. -/
structure Event where
  id : Nat
  eventDate : Int
  maxCapacity : Int
  availableSpots : Int
  creatorId : Nat
deriving DecidableEq

/-- One row of the `reservations` table (columns the core reads). -/
structure Reservation where
  id : Nat
  eventId : Nat
  userId : Nat
  status : ReservationStatus
deriving DecidableEq

/-- The database state seen by the core: the two tables plus the
autoincrement counters that hand out fresh primary keys. -/
structure DB where
  events : List Event
  reservations : List Reservation
  nextEventId : Nat
  nextReservationId : Nat
deriving DecidableEq

/-- The empty database. -/
def DB.empty : DB := ⟨[], [], 0, 0⟩

/-- Error taxonomy of the core (spec section 7); each kind corresponds to one
early-return branch of the controllers. -/
inductive ErrorKind where
  | eventNotFound
  | eventInPast
  | selfReservationForbidden
  | alreadyReserved
  | noCapacity
  | reservationNotFound
  | forbidden
  | alreadyCanceled
  | capacityBelowReservedFloor
deriving DecidableEq

/-- `Event.findByPk(eventId)`. -/
def findEvent (db : DB) (eid : Nat) : Option Event :=
  db.events.find? (fun e => e.id == eid)

/-- `Reservation.findByPk(reservationId)`. -/
def findReservationById (db : DB) (rid : Nat) : Option Reservation :=
  db.reservations.find? (fun r => r.id == rid)

/-- `Reservation.findOne({ where: { eventId, userId, status: CONFIRMED } })`. -/
def findConfirmed (db : DB) (eid uid : Nat) : Option Reservation :=
  db.reservations.find?
    (fun r => r.eventId == eid && r.userId == uid
      && r.status == ReservationStatus.confirmed)

/-- Number of confirmed reservations for a given event id. -/
def confirmedCount (rs : List Reservation) (eid : Nat) : Nat :=
  rs.countP (fun r => r.eventId == eid && r.status == ReservationStatus.confirmed)

/-- Row update performed by `event.decrement("availableSpots", { by: 1 })`:
the single row whose primary key matches loses one spot. -/
def decSpot (eid : Nat) (e : Event) : Event :=
  if e.id == eid then { e with availableSpots := e.availableSpots - 1 } else e

/-- Row update performed by `event.increment("availableSpots", { by: 1 })`. -/
def incSpot (eid : Nat) (e : Event) : Event :=
  if e.id == eid then { e with availableSpots := e.availableSpots + 1 } else e

/-- Row update performed by `reservation.update({ status: CANCELED })`. -/
def cancelUpd (rid : Nat) (r : Reservation) : Reservation :=
  if r.id == rid then { r with status := ReservationStatus.canceled } else r

/-- Row update performed by `event.update(updateData)` on the capacity
columns: sets `maxCapacity = n` and `availableSpots = n - reserved`. -/
def resizeUpd (eid : Nat) (n reserved : Int) (e : Event) : Event :=
  if e.id == eid then
    { e with maxCapacity := n, availableSpots := n - reserved }
  else e

/-- reservationController.createReservation: the transaction body.
`now` is the clock reading taken by `new Date()`.  Checks run in source
order; every failing check rolls the transaction back, so the state
component of the result is the unchanged input.  On success a Confirmed
reservation row is inserted and the event row's `availableSpots` is
decremented by 1 (`event.decrement`, an unconditional atomic update). -/
def createReservation (now : Int) (eventId userId : Nat) (role : Role)
    (db : DB) : Except ErrorKind Reservation × DB :=
  match findEvent db eventId with
  | none => (Except.error ErrorKind.eventNotFound, db)
  | some event =>
    if event.eventDate ≤ now then
      (Except.error ErrorKind.eventInPast, db)
    else if role == Role.admin && event.creatorId == userId then
      (Except.error ErrorKind.selfReservationForbidden, db)
    else if (findConfirmed db eventId userId).isSome then
      (Except.error ErrorKind.alreadyReserved, db)
    else if event.availableSpots ≤ 0 then
      (Except.error ErrorKind.noCapacity, db)
    else
      (Except.ok ⟨db.nextReservationId, eventId, userId, ReservationStatus.confirmed⟩,
        { db with
          reservations := db.reservations
            ++ [⟨db.nextReservationId, eventId, userId, ReservationStatus.confirmed⟩]
          nextReservationId := db.nextReservationId + 1
          events := db.events.map (decSpot eventId) })

/-- reservationController.cancelReservation: the transaction body.
On success the reservation row is set to Canceled and, **only if the
referenced event row still exists**, that event's `availableSpots` is
incremented by 1 (`event.increment`, unconditional: the source has no
clamp at `maxCapacity` on this path).  The success value is the updated
reservation row (the controller has it in scope for the cache key). -/
def cancelReservation (requesterId : Nat) (requesterRole : Role)
    (reservationId : Nat) (db : DB) : Except ErrorKind Reservation × DB :=
  match findReservationById db reservationId with
  | none => (Except.error ErrorKind.reservationNotFound, db)
  | some resv =>
    if requesterRole != Role.admin && requesterId != resv.userId then
      (Except.error ErrorKind.forbidden, db)
    else if resv.status == ReservationStatus.canceled then
      (Except.error ErrorKind.alreadyCanceled, db)
    else
      -- the status update touches only the reservations table, so the
      -- event lookup that follows it reads the same events rows as `db`
      match findEvent db resv.eventId with
      | none =>
        (Except.ok { resv with status := ReservationStatus.canceled },
          { db with reservations := db.reservations.map (cancelUpd reservationId) })
      | some _ =>
        (Except.ok { resv with status := ReservationStatus.canceled },
          { db with
            reservations := db.reservations.map (cancelUpd reservationId)
            events := db.events.map (incSpot resv.eventId) })

/-- eventController.updateEvent, restricted to the `maxCapacity` path.
The request body's truthiness test `maxCapacity && maxCapacity !==
event.maxCapacity` becomes the guard below (0 is falsy in JavaScript);
the route's validation middleware guarantees `1 ≤ newMaxCapacity`
whenever the field is present.  When the guard is false the update is a
no-op on the capacity columns and the request still succeeds. -/
def resizeEventCapacity (requesterId : Nat) (requesterRole : Role)
    (eventId : Nat) (newMaxCapacity : Int) (db : DB) :
    Except ErrorKind Unit × DB :=
  match findEvent db eventId with
  | none => (Except.error ErrorKind.eventNotFound, db)
  | some event =>
    if requesterRole != Role.admin && requesterId != event.creatorId then
      (Except.error ErrorKind.forbidden, db)
    else if newMaxCapacity != 0 && newMaxCapacity != event.maxCapacity then
      if newMaxCapacity < event.maxCapacity - event.availableSpots then
        (Except.error ErrorKind.capacityBelowReservedFloor, db)
      else
        (Except.ok (),
          { db with
            events := db.events.map
              (resizeUpd eventId newMaxCapacity
                (event.maxCapacity - event.availableSpots)) })
    else
      (Except.ok (), db)

/-- eventController.createEvent restricted to ledger columns: a fresh row
with `availableSpots = maxCapacity`. -/
def createEvent (eventDate maxCapacity : Int) (creatorId : Nat) (db : DB) : DB :=
  { db with
    events := db.events
      ++ [⟨db.nextEventId, eventDate, maxCapacity, maxCapacity, creatorId⟩]
    nextEventId := db.nextEventId + 1 }

/-- eventController.deleteEvent restricted to ledger columns: the event row
is destroyed; reservation rows are not touched. -/
def deleteEvent (eventId : Nat) (db : DB) : DB :=
  { db with events := db.events.filter (fun e => !(e.id == eventId)) }

/-! ## Cache coherence (clearEventCaches)

The controllers, after a committed mutation, call `clearEventCaches(eventId)`
which issues three Redis deletions in sequence inside a try/catch whose
catch only logs: the popular-events key, the event-details key for the
given id, and a pattern deletion covering every event-list page key. -/

/-- One invalidation signal sent to the cache, in the order the source
issues them. -/
inductive CacheSignal where
  | delPopularEvents
  | delEventDetails (eventId : Nat)
  | delAllEventListPages
deriving DecidableEq

/-- Where, if anywhere, the Redis client throws while clearEventCaches
runs.  A throw aborts the remaining deletions and lands in the catch
block, which logs and returns normally. -/
inductive CacheFailure where
  | ok
  | atPopularEvents
  | atEventDetails
  | atListPages
deriving DecidableEq

/-- clearEventCaches: returns the deletions that were issued (the failing
one included — it was issued, it just threw) and whether the catch block
logged an error.  It never propagates the failure. -/
def clearEventCaches (eventId : Nat) (fail : CacheFailure) :
    List CacheSignal × Bool :=
  match fail with
  | CacheFailure.ok =>
    ([CacheSignal.delPopularEvents, CacheSignal.delEventDetails eventId,
      CacheSignal.delAllEventListPages], false)
  | CacheFailure.atPopularEvents =>
    ([CacheSignal.delPopularEvents], true)
  | CacheFailure.atEventDetails =>
    ([CacheSignal.delPopularEvents, CacheSignal.delEventDetails eventId], true)
  | CacheFailure.atListPages =>
    ([CacheSignal.delPopularEvents, CacheSignal.delEventDetails eventId,
      CacheSignal.delAllEventListPages], true)

/-- createReservation controller including its post-commit section: after
a successful commit it calls `clearEventCaches(eventId)`; on any failed
precondition it rolls back and touches no cache.  The returned triple is
(operation result and committed state, issued signals, logged flag). -/
def createReservationHandler (now : Int) (eventId userId : Nat) (role : Role)
    (db : DB) (fail : CacheFailure) :
    (Except ErrorKind Reservation × DB) × List CacheSignal × Bool :=
  match createReservation now eventId userId role db with
  | (Except.ok rv, db1) =>
    ((Except.ok rv, db1), clearEventCaches eventId fail)
  | (Except.error k, db1) => ((Except.error k, db1), [], false)

/-- cancelReservation controller including its post-commit
`clearEventCaches(reservation.eventId)` call. -/
def cancelReservationHandler (requesterId : Nat) (requesterRole : Role)
    (reservationId : Nat) (db : DB) (fail : CacheFailure) :
    (Except ErrorKind Reservation × DB) × List CacheSignal × Bool :=
  match cancelReservation requesterId requesterRole reservationId db with
  | (Except.ok rv, db1) =>
    ((Except.ok rv, db1), clearEventCaches rv.eventId fail)
  | (Except.error k, db1) => ((Except.error k, db1), [], false)

/-- updateEvent controller (capacity path) including its post-commit
`clearEventCaches(event.id)` call. -/
def resizeEventCapacityHandler (requesterId : Nat) (requesterRole : Role)
    (eventId : Nat) (newMaxCapacity : Int) (db : DB) (fail : CacheFailure) :
    (Except ErrorKind Unit × DB) × List CacheSignal × Bool :=
  match resizeEventCapacity requesterId requesterRole eventId newMaxCapacity db with
  | (Except.ok _, db1) =>
    ((Except.ok (), db1), clearEventCaches eventId fail)
  | (Except.error k, db1) => ((Except.error k, db1), [], false)

/-! ## Concurrency model for the capacity check

createReservation runs inside a Sequelize transaction, but the event row
is fetched with a plain `findByPk` — **no** `lock: t.LOCK.UPDATE`, so at
PostgreSQL's default READ COMMITTED isolation the SELECT takes no row
lock and sees the latest committed value.  The capacity test
`event.availableSpots <= 0` therefore uses a possibly stale snapshot,
while `event.decrement` compiles to the atomic
`UPDATE events SET availableSpots = availableSpots - 1`.

The model below runs two such transactions (callers A and B, distinct
users with no prior reservations, on one event whose other checks pass)
as two micro-operations each: `readEvent` copies the committed
`availableSpots` into the transaction-local snapshot, and
`checkAndWrite` replays lines 84-101 of the controller against that
snapshot: if the snapshot is `≤ 0` the caller rolls back with
NoCapacity, otherwise it inserts the reservation, applies the atomic
decrement to the committed value and commits, reporting success. -/

/-- The two concurrent callers. -/
inductive Txn where
  | A
  | B
deriving DecidableEq

/-- The two micro-operations a caller's transaction performs against the
event row. -/
inductive MicroOp where
  | readEvent
  | checkAndWrite
deriving DecidableEq

/-- Shared committed state plus per-transaction snapshot and outcome;
`some true` is a committed success, `some false` a NoCapacity rollback. -/
structure RaceState where
  availableSpots : Int
  snapshotA : Option Int
  snapshotB : Option Int
  outcomeA : Option Bool
  outcomeB : Option Bool
deriving DecidableEq

/-- Initial race state: one spot left, neither caller has started. -/
def initRace : RaceState :=
  ⟨1, none, none, none, none⟩

/-- One micro-operation of one caller. -/
def raceStep (t : Txn) (op : MicroOp) (s : RaceState) : RaceState :=
  match t, op with
  | Txn.A, MicroOp.readEvent => { s with snapshotA := some s.availableSpots }
  | Txn.B, MicroOp.readEvent => { s with snapshotB := some s.availableSpots }
  | Txn.A, MicroOp.checkAndWrite =>
    match s.snapshotA with
    | none => s
    | some v =>
      if v ≤ 0 then { s with outcomeA := some false }
      else { s with availableSpots := s.availableSpots - 1, outcomeA := some true }
  | Txn.B, MicroOp.checkAndWrite =>
    match s.snapshotB with
    | none => s
    | some v =>
      if v ≤ 0 then { s with outcomeB := some false }
      else { s with availableSpots := s.availableSpots - 1, outcomeB := some true }

/-- Run a schedule (an interleaving of the two transactions' micro-ops). -/
def runRace (sched : List (Txn × MicroOp)) (s : RaceState) : RaceState :=
  sched.foldl (fun st p => raceStep p.1 p.2 st) s

/-! ## Ledger invariant and reachable states -/

/-- Per-event ledger facts: `availableSpots` is the persisted derived
quantity `maxCapacity - confirmedCount`, the confirmed reservations fit
under `maxCapacity`, and the row id is below the autoincrement counter. -/
def EventInv (db : DB) (e : Event) : Prop :=
  e.availableSpots = e.maxCapacity - (confirmedCount db.reservations e.id : Int)
  ∧ (confirmedCount db.reservations e.id : Int) ≤ e.maxCapacity
  ∧ e.id < db.nextEventId

/-- Global database invariant: every event row satisfies its ledger facts,
row ids are unique and below the autoincrement counters, and reservation
rows only reference event ids the counter has already handed out. -/
def Inv (db : DB) : Prop :=
  (∀ e ∈ db.events, EventInv db e)
  ∧ (∀ r ∈ db.reservations, r.eventId < db.nextEventId ∧ r.id < db.nextReservationId)
  ∧ (db.events.map Event.id).Nodup
  ∧ (db.reservations.map Reservation.id).Nodup

instance (db : DB) : Decidable (Inv db) := by
  unfold Inv EventInv
  infer_instance

/-- States reachable from the empty database by the operations of the
core.  `createEvent` carries the validation middleware's guarantee that
`maxCapacity` is a positive integer. -/
inductive Reachable : DB → Prop where
  | empty : Reachable DB.empty
  | createEvent (db : DB) (eventDate maxCapacity : Int) (creatorId : Nat) :
      Reachable db → 1 ≤ maxCapacity →
      Reachable (createEvent eventDate maxCapacity creatorId db)
  | deleteEvent (db : DB) (eventId : Nat) :
      Reachable db → Reachable (deleteEvent eventId db)
  | createReservation (db : DB) (now : Int) (eventId userId : Nat) (role : Role) :
      Reachable db → Reachable (createReservation now eventId userId role db).2
  | cancelReservation (db : DB) (requesterId : Nat) (requesterRole : Role)
      (reservationId : Nat) :
      Reachable db →
      Reachable (cancelReservation requesterId requesterRole reservationId db).2
  | resizeEventCapacity (db : DB) (requesterId : Nat) (requesterRole : Role)
      (eventId : Nat) (newMaxCapacity : Int) :
      Reachable db →
      Reachable (resizeEventCapacity requesterId requesterRole eventId newMaxCapacity db).2

/-! ## Helper lemmas about row lookups and row updates -/

theorem decSpot_id (eid : Nat) (e : Event) : (decSpot eid e).id = e.id := by
  unfold decSpot
  split <;> rfl

theorem incSpot_id (eid : Nat) (e : Event) : (incSpot eid e).id = e.id := by
  unfold incSpot
  split <;> rfl

theorem resizeUpd_id (eid : Nat) (n reserved : Int) (e : Event) :
    (resizeUpd eid n reserved e).id = e.id := by
  unfold resizeUpd
  split <;> rfl

theorem cancelUpd_id (rid : Nat) (r : Reservation) : (cancelUpd rid r).id = r.id := by
  unfold cancelUpd
  split <;> rfl

theorem cancelUpd_eventId (rid : Nat) (r : Reservation) :
    (cancelUpd rid r).eventId = r.eventId := by
  unfold cancelUpd
  split <;> rfl

theorem cancelUpd_userId (rid : Nat) (r : Reservation) :
    (cancelUpd rid r).userId = r.userId := by
  unfold cancelUpd
  split <;> rfl

/-- `find?` by id commutes with mapping an id-preserving row update. -/
theorem find?_map_id_eq {α : Type} (idf : α → Nat) (g : α → α)
    (hg : ∀ x, idf (g x) = idf x) (l : List α) (k : Nat) :
    (l.map g).find? (fun x => idf x == k) = (l.find? (fun x => idf x == k)).map g := by
  have h : ((fun x => idf x == k) ∘ g) = (fun x => idf x == k) := by
    funext x
    simp [Function.comp_apply, hg]
  rw [List.find?_map, h]

/-- Mapping an id-preserving row update leaves the list of ids unchanged. -/
theorem map_id_map_eq {α : Type} (idf : α → Nat) (g : α → α)
    (hg : ∀ x, idf (g x) = idf x) (l : List α) :
    (l.map g).map idf = l.map idf := by
  rw [List.map_map]
  exact List.map_congr_left (fun a _ => hg a)

/-- A keyed row update is the identity on a list containing no row with
that key. -/
theorem map_keyed_upd_eq_self {α : Type} (idf : α → Nat) (g : α → α) (k : Nat)
    (l : List α) (h : ∀ x ∈ l, idf x ≠ k) :
    l.map (fun x => if idf x == k then g x else x) = l := by
  induction l with
  | nil => rfl
  | cons a t ih =>
    have ha : ¬ ((idf a == k) = true) := by
      simpa using h a (List.mem_cons_self a t)
    have ht : ∀ x ∈ t, idf x ≠ k := fun x hx => h x (List.mem_cons_of_mem a hx)
    rw [List.map_cons, if_neg ha, ih ht]

/-- Effect of the cancel row update on the confirmed-reservation count:
cancelling the (unique) row found under `rid` removes exactly its own
contribution to each event's count. -/
theorem confirmedCount_cancel (rid : Nat) (r : Reservation) (l : List Reservation)
    (hfind : l.find? (fun x => x.id == rid) = some r)
    (hnd : (l.map Reservation.id).Nodup) (eid : Nat) :
    confirmedCount l eid
      = confirmedCount (l.map (cancelUpd rid)) eid
        + (if r.eventId = eid ∧ r.status = ReservationStatus.confirmed then 1 else 0) := by
  induction l with
  | nil => simp at hfind
  | cons a t ih =>
    by_cases hard : a.id = rid
    · have hfind2 : some a = some r := by
        rw [← hfind]
        exact (List.find?_cons_of_pos _ (by simpa using hard)).symm
      have hra : a = r := Option.some_injective _ hfind2
      subst hra
      have hnotin : ∀ x ∈ t, x.id ≠ rid := by
        intro x hx hxid
        have hmem : rid ∈ t.map Reservation.id := by
          rw [← hxid]
          exact List.mem_map_of_mem Reservation.id hx
        have hnotmem : a.id ∉ t.map Reservation.id := (List.nodup_cons.mp hnd).1
        rw [hard] at hnotmem
        exact hnotmem hmem
      have ht : t.map (cancelUpd rid) = t := by
        have heta : t.map (cancelUpd rid)
            = t.map (fun x =>
                if x.id == rid then { x with status := ReservationStatus.canceled } else x) :=
          List.map_congr_left (fun x _ => rfl)
        rw [heta]
        exact map_keyed_upd_eq_self Reservation.id
          (fun x => { x with status := ReservationStatus.canceled }) rid t hnotin
      have hca : cancelUpd rid a = { a with status := ReservationStatus.canceled } := by
        unfold cancelUpd
        rw [if_pos (by simpa using hard)]
      unfold confirmedCount
      rw [List.map_cons, hca, ht, List.countP_cons, List.countP_cons]
      by_cases h1 : a.eventId = eid <;>
        by_cases h2 : a.status = ReservationStatus.confirmed <;>
          simp [h1, h2]
    · have hfind' : t.find? (fun x => x.id == rid) = some r := by
        rw [← hfind]
        exact (List.find?_cons_of_neg _ (by simpa using hard)).symm
      have hnd' : (t.map Reservation.id).Nodup := (List.nodup_cons.mp hnd).2
      have hca : cancelUpd rid a = a := by
        unfold cancelUpd
        rw [if_neg (by simpa using hard)]
      unfold confirmedCount at *
      rw [List.map_cons, hca, List.countP_cons, List.countP_cons,
        ih hfind' hnd']
      ring

/-- Appending one reservation row adds its own contribution to each
event's confirmed count. -/
theorem confirmedCount_append_single (l : List Reservation) (r : Reservation) (k : Nat) :
    confirmedCount (l ++ [r]) k
      = confirmedCount l k
        + (if r.eventId = k ∧ r.status = ReservationStatus.confirmed then 1 else 0) := by
  unfold confirmedCount
  rw [List.countP_append]
  congr 1
  by_cases h1 : r.eventId = k <;>
    by_cases h2 : r.status = ReservationStatus.confirmed <;>
      simp [h1, h2]

theorem findEvent_mem (db : DB) (eid : Nat) (e : Event)
    (h : findEvent db eid = some e) : e ∈ db.events ∧ e.id = eid := by
  unfold findEvent at h
  exact ⟨List.mem_of_find?_eq_some h, by simpa using List.find?_some h⟩

theorem findReservation_mem (db : DB) (rid : Nat) (r : Reservation)
    (h : findReservationById db rid = some r) :
    r ∈ db.reservations ∧ r.id = rid := by
  unfold findReservationById at h
  exact ⟨List.mem_of_find?_eq_some h, by simpa using List.find?_some h⟩

theorem findConfirmed_mem (db : DB) (eid uid : Nat) (r : Reservation)
    (h : findConfirmed db eid uid = some r) :
    r ∈ db.reservations ∧ r.eventId = eid ∧ r.userId = uid
      ∧ r.status = ReservationStatus.confirmed := by
  unfold findConfirmed at h
  refine ⟨List.mem_of_find?_eq_some h, ?_⟩
  have := List.find?_some h
  simp only [Bool.and_eq_true, beq_iff_eq] at this
  exact ⟨this.1.1, this.1.2, this.2⟩

/-- Shape of a successful createReservation: every precondition passes and
the returned pair is the inserted row and the decremented state. -/
theorem createReservation_ok_spec (now : Int) (eid uid : Nat) (role : Role)
    (db : DB) (ev : Event) (hE : findEvent db eid = some ev)
    (hdate : now < ev.eventDate)
    (hself : ¬(role = Role.admin ∧ ev.creatorId = uid))
    (hconf : findConfirmed db eid uid = none)
    (hcap : 0 < ev.availableSpots) :
    createReservation now eid uid role db
      = (Except.ok ⟨db.nextReservationId, eid, uid, ReservationStatus.confirmed⟩,
         { db with
           reservations := db.reservations
             ++ [⟨db.nextReservationId, eid, uid, ReservationStatus.confirmed⟩]
           nextReservationId := db.nextReservationId + 1
           events := db.events.map (decSpot eid) }) := by
  unfold createReservation
  simp only [hE]
  rw [if_neg (by omega), if_neg (by simpa using hself),
    if_neg (by rw [hconf]; simp), if_neg (by omega)]

/-- Shape of a successful cancelReservation when the referenced event row
still exists: the row is cancelled and the event gains one spot. -/
theorem cancelReservation_ok_some_spec (requesterId : Nat) (role : Role)
    (rid : Nat) (db : DB) (r : Reservation)
    (hfind : findReservationById db rid = some r)
    (hauth : role = Role.admin ∨ requesterId = r.userId)
    (hconf : r.status = ReservationStatus.confirmed)
    (ev : Event) (hE : findEvent db r.eventId = some ev) :
    cancelReservation requesterId role rid db
      = (Except.ok { r with status := ReservationStatus.canceled },
         { db with
           reservations := db.reservations.map (cancelUpd rid)
           events := db.events.map (incSpot r.eventId) }) := by
  unfold cancelReservation
  simp only [hfind]
  rw [if_neg (by rcases hauth with h | h <;> simp [h]),
    if_neg (by simp [hconf])]
  simp only [hE]

/-- Shape of a successful cancelReservation when the referenced event row
is gone: the row is cancelled and no event is touched. -/
theorem cancelReservation_ok_none_spec (requesterId : Nat) (role : Role)
    (rid : Nat) (db : DB) (r : Reservation)
    (hfind : findReservationById db rid = some r)
    (hauth : role = Role.admin ∨ requesterId = r.userId)
    (hconf : r.status = ReservationStatus.confirmed)
    (hE : findEvent db r.eventId = none) :
    cancelReservation requesterId role rid db
      = (Except.ok { r with status := ReservationStatus.canceled },
         { db with reservations := db.reservations.map (cancelUpd rid) }) := by
  unfold cancelReservation
  simp only [hfind]
  rw [if_neg (by rcases hauth with h | h <;> simp [h]),
    if_neg (by simp [hconf])]
  simp only [hE]

/-! ## Preservation of the ledger invariant -/

theorem inv_createEvent (eventDate maxCapacity : Int) (creatorId : Nat) (db : DB)
    (h : Inv db) (hcap : 1 ≤ maxCapacity) :
    Inv (createEvent eventDate maxCapacity creatorId db) := by
  obtain ⟨hev, hres, hndE, hndR⟩ := h
  unfold createEvent
  refine ⟨?_, ?_, ?_, hndR⟩
  · intro e he
    dsimp only at he ⊢
    rw [List.mem_append, List.mem_singleton] at he
    unfold EventInv
    dsimp only
    rcases he with he | rfl
    · obtain ⟨h1, h2, h3⟩ := hev e he
      exact ⟨h1, h2, by omega⟩
    · have hcc : confirmedCount db.reservations db.nextEventId = 0 := by
        unfold confirmedCount
        rw [List.countP_eq_zero]
        intro r hr
        have hlt := (hres r hr).1
        simp only [Bool.and_eq_true, beq_iff_eq, not_and]
        intro h1
        omega
      dsimp only
      rw [hcc]
      refine ⟨by omega, by push_cast; omega, by omega⟩
  · intro r hr
    dsimp only at hr ⊢
    obtain ⟨h1, h2⟩ := hres r hr
    exact ⟨by omega, h2⟩
  · dsimp only
    rw [List.map_append]
    rw [List.nodup_append]
    refine ⟨hndE, by simp, ?_⟩
    intro x hx hx'
    simp only [List.map_cons, List.map_nil, List.mem_singleton] at hx'
    subst hx'
    rw [List.mem_map] at hx
    obtain ⟨e, he, heq⟩ := hx
    have := (hev e he).2.2
    omega

theorem inv_createReservation (now : Int) (eid uid : Nat) (role : Role)
    (db : DB) (h : Inv db) : Inv (createReservation now eid uid role db).2 := by
  obtain ⟨hev, hres, hndE, hndR⟩ := h
  unfold createReservation
  cases hE : findEvent db eid with
  | none => exact ⟨hev, hres, hndE, hndR⟩
  | some event =>
    dsimp only
    obtain ⟨hmem, heid⟩ := findEvent_mem db eid event hE
    by_cases h1 : event.eventDate ≤ now
    · rw [if_pos h1]
      exact ⟨hev, hres, hndE, hndR⟩
    rw [if_neg h1]
    by_cases h2 : (role == Role.admin && event.creatorId == uid) = true
    · rw [if_pos h2]
      exact ⟨hev, hres, hndE, hndR⟩
    rw [if_neg h2]
    by_cases h3 : (findConfirmed db eid uid).isSome = true
    · rw [if_pos h3]
      exact ⟨hev, hres, hndE, hndR⟩
    rw [if_neg h3]
    by_cases h4 : event.availableSpots ≤ 0
    · rw [if_pos h4]
      exact ⟨hev, hres, hndE, hndR⟩
    rw [if_neg h4]
    have hEIev := hev event hmem
    obtain ⟨hb1, hb2, hb3⟩ := hEIev
    refine ⟨?_, ?_, ?_, ?_⟩
    · intro e' he'
      dsimp only at he' ⊢
      rw [List.mem_map] at he'
      obtain ⟨e, he, rfl⟩ := he'
      have hEI := hev e he
      obtain ⟨hc1, hc2, hc3⟩ := hEI
      unfold EventInv
      dsimp only
      rw [confirmedCount_append_single]
      by_cases hcase : e.id = eid
      · have heq : e = event :=
          List.inj_on_of_nodup_map hndE he hmem (by rw [hcase, heid])
        subst heq
        have hd : decSpot eid e = { e with availableSpots := e.availableSpots - 1 } := by
          unfold decSpot
          rw [if_pos (by simpa using hcase)]
        rw [hd]
        dsimp only
        rw [if_pos ⟨hcase.symm, rfl⟩]
        refine ⟨by push_cast; omega, by push_cast; omega, hc3⟩
      · have hd : decSpot eid e = e := by
          unfold decSpot
          rw [if_neg (by simpa using hcase)]
        rw [hd]
        rw [if_neg (by rintro ⟨hh, _⟩; exact hcase hh.symm)]
        exact ⟨by omega, by omega, hc3⟩
    · intro r hr
      dsimp only at hr ⊢
      rw [List.mem_append, List.mem_singleton] at hr
      rcases hr with hr | rfl
      · obtain ⟨hd1, hd2⟩ := hres r hr
        exact ⟨hd1, by omega⟩
      · exact ⟨by dsimp only; omega, by dsimp only; omega⟩
    · dsimp only
      rw [map_id_map_eq Event.id (decSpot eid) (decSpot_id eid)]
      exact hndE
    · dsimp only
      rw [List.map_append, List.nodup_append]
      refine ⟨hndR, by simp, ?_⟩
      intro x hx hx'
      simp only [List.map_cons, List.map_nil, List.mem_singleton] at hx'
      subst hx'
      rw [List.mem_map] at hx
      obtain ⟨r, hr, hreq⟩ := hx
      have := (hres r hr).2
      omega

theorem inv_cancelReservation (requesterId : Nat) (role : Role) (rid : Nat)
    (db : DB) (h : Inv db) :
    Inv (cancelReservation requesterId role rid db).2 := by
  obtain ⟨hev, hres, hndE, hndR⟩ := h
  unfold cancelReservation
  cases hF : findReservationById db rid with
  | none => exact ⟨hev, hres, hndE, hndR⟩
  | some resv =>
    dsimp only
    obtain ⟨hrmem, hrid⟩ := findReservation_mem db rid resv hF
    by_cases h1 : (role != Role.admin && requesterId != resv.userId) = true
    · rw [if_pos h1]
      exact ⟨hev, hres, hndE, hndR⟩
    rw [if_neg h1]
    by_cases h2 : (resv.status == ReservationStatus.canceled) = true
    · rw [if_pos h2]
      exact ⟨hev, hres, hndE, hndR⟩
    rw [if_neg h2]
    have hconf : resv.status = ReservationStatus.confirmed := by
      cases hs : resv.status
      · rfl
      · rw [hs] at h2
        simp at h2
    have hcc : ∀ k : Nat, confirmedCount db.reservations k
        = confirmedCount (db.reservations.map (cancelUpd rid)) k
          + (if resv.eventId = k ∧ resv.status = ReservationStatus.confirmed
             then 1 else 0) :=
      fun k => confirmedCount_cancel rid resv db.reservations hF hndR k
    have hmapids : (db.reservations.map (cancelUpd rid)).map Reservation.id
        = db.reservations.map Reservation.id :=
      map_id_map_eq Reservation.id (cancelUpd rid) (cancelUpd_id rid) db.reservations
    cases hE : findEvent db resv.eventId with
    | none =>
      dsimp only
      have hnoev : ∀ e ∈ db.events, e.id ≠ resv.eventId := by
        unfold findEvent at hE
        intro e he
        have := List.find?_eq_none.mp hE e he
        simpa using this
      refine ⟨?_, ?_, hndE, ?_⟩
      · intro e he
        dsimp only at he ⊢
        obtain ⟨hc1, hc2, hc3⟩ := hev e he
        unfold EventInv
        dsimp only
        have hk := hcc e.id
        rw [if_neg (by rintro ⟨hh, _⟩; exact hnoev e he hh.symm)] at hk
        exact ⟨by omega, by omega, hc3⟩
      · intro r' hr'
        dsimp only at hr' ⊢
        rw [List.mem_map] at hr'
        obtain ⟨r, hr, rfl⟩ := hr'
        rw [cancelUpd_eventId, cancelUpd_id]
        exact hres r hr
      · dsimp only
        rw [hmapids]
        exact hndR
    | some ev =>
      dsimp only
      obtain ⟨hevmem, hevid⟩ := findEvent_mem db resv.eventId ev hE
      refine ⟨?_, ?_, ?_, ?_⟩
      · intro e' he'
        dsimp only at he' ⊢
        rw [List.mem_map] at he'
        obtain ⟨e, he, rfl⟩ := he'
        obtain ⟨hc1, hc2, hc3⟩ := hev e he
        unfold EventInv
        by_cases hcase : e.id = resv.eventId
        · have hi : incSpot resv.eventId e
              = { e with availableSpots := e.availableSpots + 1 } := by
            unfold incSpot
            rw [if_pos (by simpa using hcase)]
          rw [hi]
          dsimp only
          have hk := hcc e.id
          rw [if_pos ⟨hcase.symm, hconf⟩] at hk
          refine ⟨by omega, by omega, hc3⟩
        · have hi : incSpot resv.eventId e = e := by
            unfold incSpot
            rw [if_neg (by simpa using hcase)]
          rw [hi]
          dsimp only
          have hk := hcc e.id
          rw [if_neg (by rintro ⟨hh, _⟩; exact hcase hh.symm)] at hk
          exact ⟨by omega, by omega, hc3⟩
      · intro r' hr'
        dsimp only at hr' ⊢
        rw [List.mem_map] at hr'
        obtain ⟨r, hr, rfl⟩ := hr'
        rw [cancelUpd_eventId, cancelUpd_id]
        exact hres r hr
      · dsimp only
        rw [map_id_map_eq Event.id (incSpot resv.eventId) (incSpot_id resv.eventId)]
        exact hndE
      · dsimp only
        rw [hmapids]
        exact hndR

theorem inv_resizeEventCapacity (requesterId : Nat) (role : Role) (eid : Nat)
    (n : Int) (db : DB) (h : Inv db) :
    Inv (resizeEventCapacity requesterId role eid n db).2 := by
  obtain ⟨hev, hres, hndE, hndR⟩ := h
  unfold resizeEventCapacity
  cases hE : findEvent db eid with
  | none => exact ⟨hev, hres, hndE, hndR⟩
  | some event =>
    dsimp only
    obtain ⟨hmem, heid⟩ := findEvent_mem db eid event hE
    obtain ⟨hb1, hb2, hb3⟩ := hev event hmem
    by_cases h1 : (role != Role.admin && requesterId != event.creatorId) = true
    · rw [if_pos h1]
      exact ⟨hev, hres, hndE, hndR⟩
    rw [if_neg h1]
    by_cases h2 : (n != 0 && n != event.maxCapacity) = true
    · rw [if_pos h2]
      by_cases h3 : n < event.maxCapacity - event.availableSpots
      · rw [if_pos h3]
        exact ⟨hev, hres, hndE, hndR⟩
      rw [if_neg h3]
      refine ⟨?_, hres, ?_, hndR⟩
      · intro e' he'
        dsimp only at he' ⊢
        rw [List.mem_map] at he'
        obtain ⟨e, he, rfl⟩ := he'
        obtain ⟨hc1, hc2, hc3⟩ := hev e he
        unfold EventInv
        by_cases hcase : e.id = eid
        · have heq : e = event :=
            List.inj_on_of_nodup_map hndE he hmem (by rw [hcase, heid])
          rw [heq]
          have hu : resizeUpd eid n (event.maxCapacity - event.availableSpots) event
              = { event with
                  maxCapacity := n
                  availableSpots := n - (event.maxCapacity - event.availableSpots) } := by
            unfold resizeUpd
            rw [if_pos (by simp [heid])]
          rw [hu]
          dsimp only
          exact ⟨by omega, by omega, hb3⟩
        · have hu : resizeUpd eid n (event.maxCapacity - event.availableSpots) e = e := by
            unfold resizeUpd
            rw [if_neg (by simpa using hcase)]
          rw [hu]
          exact ⟨hc1, hc2, hc3⟩
      · dsimp only
        rw [map_id_map_eq Event.id
          (resizeUpd eid n (event.maxCapacity - event.availableSpots))
          (resizeUpd_id eid n (event.maxCapacity - event.availableSpots))]
        exact hndE
    · rw [if_neg h2]
      exact ⟨hev, hres, hndE, hndR⟩

theorem inv_deleteEvent (eventId : Nat) (db : DB) (h : Inv db) :
    Inv (deleteEvent eventId db) := by
  obtain ⟨hev, hres, hndE, hndR⟩ := h
  unfold deleteEvent
  refine ⟨?_, hres, ?_, hndR⟩
  · intro e he
    dsimp only at he ⊢
    rw [List.mem_filter] at he
    exact hev e he.1
  · dsimp only
    have hsub : List.Sublist
        ((db.events.filter (fun e => !(e.id == eventId))).map Event.id)
        (db.events.map Event.id) :=
      (List.filter_sublist db.events).map Event.id
    exact hndE.sublist hsub

/-- Every reachable database state satisfies the ledger invariant. -/
theorem reachable_inv (db : DB) (h : Reachable db) : Inv db := by
  induction h with
  | empty => decide
  | createEvent d date cap creator hprev hcap ih =>
    exact inv_createEvent date cap creator d ih hcap
  | deleteEvent d eid hprev ih =>
    exact inv_deleteEvent eid d ih
  | createReservation d now eid uid role hprev ih =>
    exact inv_createReservation now eid uid role d ih
  | cancelReservation d rq role rid hprev ih =>
    exact inv_cancelReservation rq role rid d ih
  | resizeEventCapacity d rq role eid n hprev ih =>
    exact inv_resizeEventCapacity rq role eid n d ih

/-! ## Claim theorems -/

/-- Claim C2: in every state reachable by any sequence of the core
operations (event creation/deletion, CreateReservation, CancelReservation,
ResizeEventCapacity), every event row satisfies
`0 ≤ availableSpots ≤ maxCapacity`. -/
theorem c2_availableSpots_bounds (db : DB) (h : Reachable db) :
    ∀ e ∈ db.events, 0 ≤ e.availableSpots ∧ e.availableSpots ≤ e.maxCapacity := by
  obtain ⟨hev, -, -, -⟩ := reachable_inv db h
  intro e he
  obtain ⟨h1, h2, -⟩ := hev e he
  exact ⟨by omega, by omega⟩

theorem c2_availableSpots_bounds_witness :
    0 ≤ (Event.mk 0 10 2 2 0).availableSpots
      ∧ (Event.mk 0 10 2 2 0).availableSpots ≤ (Event.mk 0 10 2 2 0).maxCapacity :=
  c2_availableSpots_bounds (createEvent 10 2 0 DB.empty)
    (Reachable.createEvent DB.empty 10 2 0 Reachable.empty (by decide))
    (Event.mk 0 10 2 2 0) (by decide)

/-- Claim C3: in every reachable state, after a CreateReservation, a
CancelReservation, or a ResizeEventCapacity operation completes (with any
arguments), every event row's `availableSpots` equals `maxCapacity` minus
the number of Confirmed reservations for that event. -/
theorem c3_spots_eq_capacity_minus_confirmed (db : DB) (h : Reachable db)
    (now : Int) (eid uid requesterId : Nat) (role : Role) (rid : Nat) (n : Int) :
    (∀ e ∈ (createReservation now eid uid role db).2.events,
      e.availableSpots = e.maxCapacity
        - (confirmedCount (createReservation now eid uid role db).2.reservations e.id : Int))
    ∧ (∀ e ∈ (cancelReservation requesterId role rid db).2.events,
      e.availableSpots = e.maxCapacity
        - (confirmedCount (cancelReservation requesterId role rid db).2.reservations e.id : Int))
    ∧ (∀ e ∈ (resizeEventCapacity requesterId role eid n db).2.events,
      e.availableSpots = e.maxCapacity
        - (confirmedCount (resizeEventCapacity requesterId role eid n db).2.reservations e.id : Int)) := by
  have hinv := reachable_inv db h
  refine ⟨?_, ?_, ?_⟩
  · intro e he
    exact ((inv_createReservation now eid uid role db hinv).1 e he).1
  · intro e he
    exact ((inv_cancelReservation requesterId role rid db hinv).1 e he).1
  · intro e he
    exact ((inv_resizeEventCapacity requesterId role eid n db hinv).1 e he).1

theorem c3_spots_eq_capacity_minus_confirmed_witness :
    (Event.mk 0 10 2 1 0).availableSpots
      = (Event.mk 0 10 2 1 0).maxCapacity
        - (confirmedCount
            (createReservation 5 0 1 Role.user (createEvent 10 2 0 DB.empty)).2.reservations
            (Event.mk 0 10 2 1 0).id : Int) :=
  (c3_spots_eq_capacity_minus_confirmed (createEvent 10 2 0 DB.empty)
      (Reachable.createEvent DB.empty 10 2 0 Reachable.empty (by decide))
      5 0 1 0 Role.user 0 2).1 (Event.mk 0 10 2 1 0) (by decide)

/-- Claim C5: createReservation checks its five preconditions in source
order — event exists, event date strictly in the future, requester not an
admin reserving their own event, no existing Confirmed reservation for the
pair, spots available — short-circuiting at the first failure, mutating
nothing on any failure; each error kind occurs exactly when its check is
the first to fail, so in particular an admin whose creatorId equals the
requesting userId always gets selfReservationForbidden once the event
exists and is in the future, regardless of capacity. -/
theorem c5_create_check_order (now : Int) (eid uid : Nat) (role : Role) (db : DB) :
    ((createReservation now eid uid role db).2 = db
      ∨ ∃ rv, (createReservation now eid uid role db).1 = Except.ok rv)
    ∧ ((createReservation now eid uid role db).1 = Except.error ErrorKind.eventNotFound
        ↔ findEvent db eid = none)
    ∧ ∀ ev, findEvent db eid = some ev →
        (((createReservation now eid uid role db).1 = Except.error ErrorKind.eventInPast
            ↔ ev.eventDate ≤ now)
        ∧ ((createReservation now eid uid role db).1
              = Except.error ErrorKind.selfReservationForbidden
            ↔ (now < ev.eventDate ∧ role = Role.admin ∧ ev.creatorId = uid))
        ∧ ((createReservation now eid uid role db).1 = Except.error ErrorKind.alreadyReserved
            ↔ (now < ev.eventDate ∧ ¬(role = Role.admin ∧ ev.creatorId = uid)
                ∧ (findConfirmed db eid uid).isSome = true))
        ∧ ((createReservation now eid uid role db).1 = Except.error ErrorKind.noCapacity
            ↔ (now < ev.eventDate ∧ ¬(role = Role.admin ∧ ev.creatorId = uid)
                ∧ (findConfirmed db eid uid).isSome = false ∧ ev.availableSpots ≤ 0))) := by
  unfold createReservation
  cases hE : findEvent db eid with
  | none =>
    refine ⟨Or.inl rfl, by simp, ?_⟩
    intro ev hev
    exact absurd hev (by simp)
  | some event =>
    dsimp only
    by_cases h1 : event.eventDate ≤ now
    · rw [if_pos h1]
      refine ⟨Or.inl rfl, by simp, ?_⟩
      intro ev hev
      rw [Option.some_inj] at hev
      subst hev
      refine ⟨by simp [h1], ?_, ?_, ?_⟩
      · exact ⟨fun hh => by simp at hh, fun hh => by omega⟩
      · exact ⟨fun hh => by simp at hh, fun hh => by omega⟩
      · exact ⟨fun hh => by simp at hh, fun hh => by omega⟩
    rw [if_neg h1]
    by_cases h2 : (role == Role.admin && event.creatorId == uid) = true
    · rw [if_pos h2]
      rw [Bool.and_eq_true, beq_iff_eq, beq_iff_eq] at h2
      refine ⟨Or.inl rfl, by simp, ?_⟩
      intro ev hev
      rw [Option.some_inj] at hev
      subst hev
      refine ⟨⟨fun hh => by simp at hh, fun hh => absurd hh h1⟩, ?_, ?_, ?_⟩
      · exact ⟨fun _ => ⟨by omega, h2.1, h2.2⟩, fun _ => rfl⟩
      · exact ⟨fun hh => by simp at hh, fun hh => absurd ⟨h2.1, h2.2⟩ hh.2.1⟩
      · exact ⟨fun hh => by simp at hh, fun hh => absurd ⟨h2.1, h2.2⟩ hh.2.1⟩
    rw [if_neg h2]
    have hns : ¬(role = Role.admin ∧ event.creatorId = uid) := by simpa using h2
    by_cases h3 : (findConfirmed db eid uid).isSome = true
    · rw [if_pos h3]
      refine ⟨Or.inl rfl, by simp, ?_⟩
      intro ev hev
      rw [Option.some_inj] at hev
      subst hev
      refine ⟨⟨fun hh => by simp at hh, fun hh => absurd hh h1⟩, ?_, ?_, ?_⟩
      · exact ⟨fun hh => by simp at hh, fun hh => absurd ⟨hh.2.1, hh.2.2⟩ hns⟩
      · exact ⟨fun _ => ⟨by omega, hns, h3⟩, fun _ => rfl⟩
      · exact ⟨fun hh => by simp at hh,
          fun hh => by rw [hh.2.2.1] at h3; exact absurd h3 Bool.false_ne_true⟩
    rw [if_neg h3]
    have h3f : (findConfirmed db eid uid).isSome = false := by
      simpa using h3
    by_cases h4 : event.availableSpots ≤ 0
    · rw [if_pos h4]
      refine ⟨Or.inl rfl, by simp, ?_⟩
      intro ev hev
      rw [Option.some_inj] at hev
      subst hev
      refine ⟨⟨fun hh => by simp at hh, fun hh => absurd hh h1⟩, ?_, ?_, ?_⟩
      · exact ⟨fun hh => by simp at hh, fun hh => absurd ⟨hh.2.1, hh.2.2⟩ hns⟩
      · exact ⟨fun hh => by simp at hh,
          fun hh => by rw [hh.2.2] at h3f; exact absurd h3f Bool.noConfusion⟩
      · exact ⟨fun _ => ⟨by omega, hns, h3f, h4⟩, fun _ => rfl⟩
    rw [if_neg h4]
    refine ⟨Or.inr ⟨_, rfl⟩, by simp, ?_⟩
    intro ev hev
    rw [Option.some_inj] at hev
    subst hev
    refine ⟨⟨fun hh => by simp at hh, fun hh => absurd hh h1⟩, ?_, ?_, ?_⟩
    · exact ⟨fun hh => by simp at hh, fun hh => absurd ⟨hh.2.1, hh.2.2⟩ hns⟩
    · exact ⟨fun hh => by simp at hh,
        fun hh => by rw [hh.2.2] at h3f; exact absurd h3f Bool.noConfusion⟩
    · exact ⟨fun hh => by simp at hh, fun hh => absurd hh.2.2.2 h4⟩

theorem c5_create_check_order_witness :
    (createReservation 0 0 7 Role.admin
        (DB.mk [Event.mk 0 10 5 5 7] [] 1 0)).1
      = Except.error ErrorKind.selfReservationForbidden :=
  (((c5_create_check_order 0 0 7 Role.admin
      (DB.mk [Event.mk 0 10 5 5 7] [] 1 0)).2.2 (Event.mk 0 10 5 5 7)
      (by decide)).2.1).mpr ⟨by decide, rfl, by decide⟩

/-- Database used to instantiate the cancel-twice claim. -/
def c6Db : DB :=
  ⟨[Event.mk 0 10 2 1 0], [Reservation.mk 0 0 1 ReservationStatus.confirmed], 1, 1⟩

/-- Claim C6: cancelling the same reservation id twice — when the first
call is made by its owner or an admin on a Confirmed reservation whose
event row exists, it succeeds, marking the row Canceled and incrementing
the event's availableSpots by one; the second call fails with
alreadyCanceled and returns the state unchanged, so availableSpots is
incremented exactly once in total. -/
theorem c6_cancel_twice (requesterId : Nat) (role : Role) (rid : Nat) (db : DB)
    (r : Reservation) (hfind : findReservationById db rid = some r)
    (hconf : r.status = ReservationStatus.confirmed)
    (hauth : role = Role.admin ∨ requesterId = r.userId)
    (ev : Event) (hev : findEvent db r.eventId = some ev) :
    (cancelReservation requesterId role rid db).1
        = Except.ok { r with status := ReservationStatus.canceled }
    ∧ findReservationById (cancelReservation requesterId role rid db).2 rid
        = some { r with status := ReservationStatus.canceled }
    ∧ findEvent (cancelReservation requesterId role rid db).2 r.eventId
        = some { ev with availableSpots := ev.availableSpots + 1 }
    ∧ cancelReservation requesterId role rid (cancelReservation requesterId role rid db).2
        = (Except.error ErrorKind.alreadyCanceled,
           (cancelReservation requesterId role rid db).2) := by
  obtain ⟨hrmem, hrid⟩ := findReservation_mem db rid r hfind
  obtain ⟨hevmem, hevid⟩ := findEvent_mem db r.eventId ev hev
  have hspec := cancelReservation_ok_some_spec requesterId role rid db r hfind hauth hconf ev hev
  rw [hspec]
  dsimp only
  have hfindr : db.reservations.find? (fun x => x.id == rid) = some r := hfind
  have hfind2 : (db.reservations.map (cancelUpd rid)).find? (fun x => x.id == rid)
      = some { r with status := ReservationStatus.canceled } := by
    rw [find?_map_id_eq Reservation.id (cancelUpd rid) (cancelUpd_id rid)
      db.reservations rid, hfindr]
    have : cancelUpd rid r = { r with status := ReservationStatus.canceled } := by
      unfold cancelUpd
      rw [if_pos (by simpa using hrid)]
    simp [this]
  have hfinde : db.events.find? (fun x => x.id == r.eventId) = some ev := hev
  have hfindE2 : (db.events.map (incSpot r.eventId)).find? (fun x => x.id == r.eventId)
      = some { ev with availableSpots := ev.availableSpots + 1 } := by
    rw [find?_map_id_eq Event.id (incSpot r.eventId) (incSpot_id r.eventId)
      db.events r.eventId, hfinde]
    have : incSpot r.eventId ev = { ev with availableSpots := ev.availableSpots + 1 } := by
      unfold incSpot
      rw [if_pos (by simpa using hevid)]
    simp [this]
  refine ⟨rfl, hfind2, hfindE2, ?_⟩
  unfold cancelReservation
  have hfind2' : findReservationById
      { db with
        reservations := db.reservations.map (cancelUpd rid)
        events := db.events.map (incSpot r.eventId) } rid
      = some { r with status := ReservationStatus.canceled } := hfind2
  simp only [hfind2']
  rw [if_neg (by rcases hauth with h | h <;> simp [h]), if_pos (by simp)]

theorem c6_cancel_twice_witness :
    (cancelReservation 1 Role.user 0 c6Db).1
        = Except.ok (Reservation.mk 0 0 1 ReservationStatus.canceled)
    ∧ findReservationById (cancelReservation 1 Role.user 0 c6Db).2 0
        = some (Reservation.mk 0 0 1 ReservationStatus.canceled)
    ∧ findEvent (cancelReservation 1 Role.user 0 c6Db).2 0
        = some (Event.mk 0 10 2 2 0)
    ∧ cancelReservation 1 Role.user 0 (cancelReservation 1 Role.user 0 c6Db).2
        = (Except.error ErrorKind.alreadyCanceled,
           (cancelReservation 1 Role.user 0 c6Db).2) :=
  c6_cancel_twice 1 Role.user 0 c6Db (Reservation.mk 0 0 1 ReservationStatus.confirmed)
    (by decide) rfl (Or.inr rfl) (Event.mk 0 10 2 1 0) (by decide)

/-- Claim C7: the updateEvent capacity path (authorized requester,
validated positive target capacity `n`, a stored spot count that is not
negative) fails with capacityBelowReservedFloor exactly when
`n < maxCapacity - availableSpots`, and otherwise succeeds with the
reservation rows untouched, `maxCapacity = n` and
`availableSpots = n - (maxCapacity - availableSpots)`. -/
theorem c7_resize_floor (requesterId eid : Nat) (n : Int) (db : DB) (ev : Event)
    (hev : findEvent db eid = some ev) (hn : 1 ≤ n)
    (hpos : 0 ≤ ev.availableSpots) :
    ((resizeEventCapacity requesterId Role.admin eid n db).1
        = Except.error ErrorKind.capacityBelowReservedFloor
      ↔ n < ev.maxCapacity - ev.availableSpots)
    ∧ (ev.maxCapacity - ev.availableSpots ≤ n →
        (resizeEventCapacity requesterId Role.admin eid n db).1 = Except.ok ()
        ∧ (resizeEventCapacity requesterId Role.admin eid n db).2.reservations
            = db.reservations
        ∧ findEvent (resizeEventCapacity requesterId Role.admin eid n db).2 eid
            = some { ev with
                maxCapacity := n
                availableSpots := n - (ev.maxCapacity - ev.availableSpots) }) := by
  obtain ⟨hmem, heid⟩ := findEvent_mem db eid ev hev
  unfold resizeEventCapacity
  simp only [hev]
  rw [if_neg (by simp)]
  by_cases hc : n = ev.maxCapacity
  · rw [if_neg (by simp [hc])]
    constructor
    · exact ⟨fun hh => by simp at hh, fun hh => by omega⟩
    · intro hle
      refine ⟨rfl, rfl, ?_⟩
      rw [hev]
      obtain ⟨i, d, m, a, c⟩ := ev
      dsimp only at hc hpos ⊢
      rw [show n - (m - a) = a from by omega, show n = m from hc]
  · have hn0 : n ≠ 0 := by omega
    rw [if_pos (by simp [hn0, hc])]
    by_cases hfl : n < ev.maxCapacity - ev.availableSpots
    · rw [if_pos hfl]
      exact ⟨⟨fun _ => hfl, fun _ => rfl⟩, fun hle => absurd hfl (by omega)⟩
    · rw [if_neg hfl]
      refine ⟨⟨fun hh => by simp at hh, fun hh => absurd hh hfl⟩, ?_⟩
      intro hle
      refine ⟨rfl, rfl, ?_⟩
      unfold findEvent
      dsimp only
      rw [find?_map_id_eq Event.id
        (resizeUpd eid n (ev.maxCapacity - ev.availableSpots))
        (resizeUpd_id eid n (ev.maxCapacity - ev.availableSpots)) db.events eid]
      have hfinde : db.events.find? (fun x => x.id == eid) = some ev := hev
      rw [hfinde]
      have : resizeUpd eid n (ev.maxCapacity - ev.availableSpots) ev
          = { ev with
              maxCapacity := n
              availableSpots := n - (ev.maxCapacity - ev.availableSpots) } := by
        unfold resizeUpd
        rw [if_pos (by simpa using heid)]
      simp [this]

theorem c7_resize_floor_witness :
    (resizeEventCapacity 9 Role.admin 0 4 (DB.mk [Event.mk 0 10 5 3 7] [] 1 0)).1
        = Except.ok ()
    ∧ (resizeEventCapacity 9 Role.admin 0 4 (DB.mk [Event.mk 0 10 5 3 7] [] 1 0)).2.reservations
        = []
    ∧ findEvent (resizeEventCapacity 9 Role.admin 0 4 (DB.mk [Event.mk 0 10 5 3 7] [] 1 0)).2 0
        = some (Event.mk 0 10 4 2 7) :=
  (c7_resize_floor 9 0 4 (DB.mk [Event.mk 0 10 5 3 7] [] 1 0) (Event.mk 0 10 5 3 7)
      (by decide) (by decide) (by decide)).2 (by decide)

/-- State exhibiting the missing clamp: the event row already shows
availableSpots = maxCapacity while a Confirmed reservation exists. -/
def c4Db : DB :=
  ⟨[Event.mk 0 10 2 2 5], [Reservation.mk 0 0 1 ReservationStatus.confirmed], 1, 1⟩

/-- Claim C4 counterexample: cancelReservation performs an unconditional
increment with no clamp at maxCapacity — cancelling a Confirmed
reservation while the event already shows availableSpots = maxCapacity = 2
succeeds and leaves availableSpots = 3, not 2 as the claim requires. -/
theorem c4_cancel_clamp_counterexample :
    (cancelReservation 1 Role.user 0 c4Db).1
        = Except.ok (Reservation.mk 0 0 1 ReservationStatus.canceled)
    ∧ findEvent (cancelReservation 1 Role.user 0 c4Db).2 0
        = some (Event.mk 0 10 2 3 5) := ⟨rfl, rfl⟩

/-- Claim C4 amended: a successful cancel of a Confirmed reservation adds
exactly 1 to the event's availableSpots, with no clamp in the code; in any
state satisfying the ledger invariant (in particular every reachable
state) the result still never exceeds maxCapacity, because the Confirmed
reservation being cancelled keeps availableSpots ≤ maxCapacity - 1
beforehand. -/
theorem c4_cancel_increment_bounded (requesterId : Nat) (role : Role) (rid : Nat)
    (db : DB) (hinv : Inv db) (r : Reservation)
    (hfind : findReservationById db rid = some r)
    (hconf : r.status = ReservationStatus.confirmed)
    (hauth : role = Role.admin ∨ requesterId = r.userId)
    (ev : Event) (hev : findEvent db r.eventId = some ev) :
    findEvent (cancelReservation requesterId role rid db).2 r.eventId
        = some { ev with availableSpots := ev.availableSpots + 1 }
    ∧ ev.availableSpots + 1 ≤ ev.maxCapacity := by
  obtain ⟨hrmem, hrid⟩ := findReservation_mem db rid r hfind
  obtain ⟨hevmem, hevid⟩ := findEvent_mem db r.eventId ev hev
  rw [cancelReservation_ok_some_spec requesterId role rid db r hfind hauth hconf ev hev]
  constructor
  · unfold findEvent
    dsimp only
    have hfinde : db.events.find? (fun x => x.id == r.eventId) = some ev := hev
    rw [find?_map_id_eq Event.id (incSpot r.eventId) (incSpot_id r.eventId)
      db.events r.eventId, hfinde]
    have : incSpot r.eventId ev = { ev with availableSpots := ev.availableSpots + 1 } := by
      unfold incSpot
      rw [if_pos (by simpa using hevid)]
    simp [this]
  · obtain ⟨hevinv, -, -, -⟩ := hinv
    obtain ⟨hc1, hc2, -⟩ := hevinv ev hevmem
    have hccpos : 0 < confirmedCount db.reservations ev.id := by
      unfold confirmedCount
      refine List.countP_pos_iff.mpr ⟨r, hrmem, ?_⟩
      simp [hconf, hevid]
    omega

theorem c4_cancel_increment_bounded_witness :
    findEvent (cancelReservation 1 Role.user 0 c6Db).2 0 = some (Event.mk 0 10 2 2 0)
    ∧ (Event.mk 0 10 2 1 0).availableSpots + 1 ≤ (Event.mk 0 10 2 1 0).maxCapacity :=
  c4_cancel_increment_bounded 1 Role.user 0 c6Db (by decide)
    (Reservation.mk 0 0 1 ReservationStatus.confirmed) (by decide) rfl (Or.inr rfl)
    (Event.mk 0 10 2 1 0) (by decide)

/-- Claim C10: cancelling a Confirmed reservation whose referenced event
row no longer exists still succeeds — the reservation row is marked
Canceled and committed, the caller is told the cancellation succeeded, and
no event row's availableSpots is touched. -/
theorem c10_cancel_missing_event (requesterId : Nat) (role : Role) (rid : Nat)
    (db : DB) (r : Reservation) (hfind : findReservationById db rid = some r)
    (hconf : r.status = ReservationStatus.confirmed)
    (hauth : role = Role.admin ∨ requesterId = r.userId)
    (hev : findEvent db r.eventId = none) :
    (cancelReservation requesterId role rid db).1
        = Except.ok { r with status := ReservationStatus.canceled }
    ∧ (cancelReservation requesterId role rid db).2.events = db.events
    ∧ findReservationById (cancelReservation requesterId role rid db).2 rid
        = some { r with status := ReservationStatus.canceled } := by
  obtain ⟨hrmem, hrid⟩ := findReservation_mem db rid r hfind
  rw [cancelReservation_ok_none_spec requesterId role rid db r hfind hauth hconf hev]
  refine ⟨rfl, rfl, ?_⟩
  unfold findReservationById
  dsimp only
  have hfindr : db.reservations.find? (fun x => x.id == rid) = some r := hfind
  rw [find?_map_id_eq Reservation.id (cancelUpd rid) (cancelUpd_id rid)
    db.reservations rid, hfindr]
  have : cancelUpd rid r = { r with status := ReservationStatus.canceled } := by
    unfold cancelUpd
    rw [if_pos (by simpa using hrid)]
  simp [this]

theorem c10_cancel_missing_event_witness :
    (cancelReservation 1 Role.user 0 (DB.mk [] [Reservation.mk 0 5 1 ReservationStatus.confirmed] 1 1)).1
        = Except.ok (Reservation.mk 0 5 1 ReservationStatus.canceled)
    ∧ (cancelReservation 1 Role.user 0 (DB.mk [] [Reservation.mk 0 5 1 ReservationStatus.confirmed] 1 1)).2.events
        = []
    ∧ findReservationById
        (cancelReservation 1 Role.user 0 (DB.mk [] [Reservation.mk 0 5 1 ReservationStatus.confirmed] 1 1)).2 0
        = some (Reservation.mk 0 5 1 ReservationStatus.canceled) :=
  c10_cancel_missing_event 1 Role.user 0
    (DB.mk [] [Reservation.mk 0 5 1 ReservationStatus.confirmed] 1 1)
    (Reservation.mk 0 5 1 ReservationStatus.confirmed) (by decide) rfl (Or.inr rfl)
    (by decide)

/-- Claim C1: behaviour of two concurrent one-spot createReservation calls.
The interleaving in which both transactions SELECT the event row before
either one's UPDATE commits (possible because the source fetches the row
without a FOR UPDATE lock at READ COMMITTED isolation) makes both callers
pass the capacity check, so both commit success and availableSpots ends at
-1 — two successes, which the claim forbids.  The two serialized schedules
give exactly one success and one NoCapacity failure, the outcome the claim
requires of every schedule. -/
theorem c1_race_two_successes :
    ((runRace [(Txn.A, MicroOp.readEvent), (Txn.B, MicroOp.readEvent),
        (Txn.A, MicroOp.checkAndWrite), (Txn.B, MicroOp.checkAndWrite)] initRace).outcomeA
          = some true
      ∧ (runRace [(Txn.A, MicroOp.readEvent), (Txn.B, MicroOp.readEvent),
          (Txn.A, MicroOp.checkAndWrite), (Txn.B, MicroOp.checkAndWrite)] initRace).outcomeB
            = some true
      ∧ (runRace [(Txn.A, MicroOp.readEvent), (Txn.B, MicroOp.readEvent),
          (Txn.A, MicroOp.checkAndWrite), (Txn.B, MicroOp.checkAndWrite)] initRace).availableSpots
            = -1)
    ∧ ((runRace [(Txn.A, MicroOp.readEvent), (Txn.A, MicroOp.checkAndWrite),
        (Txn.B, MicroOp.readEvent), (Txn.B, MicroOp.checkAndWrite)] initRace).outcomeA
          = some true
      ∧ (runRace [(Txn.A, MicroOp.readEvent), (Txn.A, MicroOp.checkAndWrite),
          (Txn.B, MicroOp.readEvent), (Txn.B, MicroOp.checkAndWrite)] initRace).outcomeB
            = some false
      ∧ (runRace [(Txn.A, MicroOp.readEvent), (Txn.A, MicroOp.checkAndWrite),
          (Txn.B, MicroOp.readEvent), (Txn.B, MicroOp.checkAndWrite)] initRace).availableSpots
            = 0) := by decide

/-- State for the cancel-then-rebook counterexample: user 7 is an admin
holding a Confirmed reservation for the future-dated event 0, which user 7
created. -/
def c8Db : DB :=
  ⟨[Event.mk 0 10 2 1 7], [Reservation.mk 0 0 7 ReservationStatus.confirmed], 1, 1⟩

/-- Claim C8 counterexample: an admin who created the event and holds a
Confirmed reservation for it can cancel, but the rebooking Create for the
same (event, user) pair fails with selfReservationForbidden even though
the event date is still in the future — so cancel-then-rebook does not
succeed for every pair holding a Confirmed reservation. -/
theorem c8_cancel_rebook_counterexample :
    (cancelReservation 7 Role.admin 0 c8Db).1
        = Except.ok (Reservation.mk 0 0 7 ReservationStatus.canceled)
    ∧ (createReservation 0 0 7 Role.admin (cancelReservation 7 Role.admin 0 c8Db).2).1
        = Except.error ErrorKind.selfReservationForbidden := ⟨rfl, rfl⟩

/-- Claim C8 amended: for a user holding the only Confirmed reservation of
the pair, on an existing event whose date is still strictly in the future,
and who is not an admin that created the event, Cancel followed by Create
for the same pair succeeds — the Canceled row does not block the new
Confirmed one — and availableSpots ends at exactly its pre-cancel value. -/
theorem c8_cancel_then_rebook (now : Int) (uid : Nat) (role : Role) (rid : Nat)
    (db : DB) (r : Reservation) (hfind : findReservationById db rid = some r)
    (hconf : r.status = ReservationStatus.confirmed) (huid : r.userId = uid)
    (ev : Event) (hev : findEvent db r.eventId = some ev)
    (hdate : now < ev.eventDate)
    (hself : ¬(role = Role.admin ∧ ev.creatorId = uid))
    (hpos : 0 ≤ ev.availableSpots)
    (huniq : ∀ r2 ∈ db.reservations, r2.eventId = r.eventId → r2.userId = uid →
        r2.status = ReservationStatus.confirmed → r2.id = rid) :
    (cancelReservation uid role rid db).1
        = Except.ok { r with status := ReservationStatus.canceled }
    ∧ (createReservation now r.eventId uid role (cancelReservation uid role rid db).2).1
        = Except.ok ⟨db.nextReservationId, r.eventId, uid, ReservationStatus.confirmed⟩
    ∧ findEvent
        (createReservation now r.eventId uid role (cancelReservation uid role rid db).2).2
        r.eventId
      = some ev := by
  obtain ⟨hrmem, hrid⟩ := findReservation_mem db rid r hfind
  obtain ⟨hevmem, hevid⟩ := findEvent_mem db r.eventId ev hev
  have hauth : role = Role.admin ∨ uid = r.userId := Or.inr huid.symm
  rw [cancelReservation_ok_some_spec uid role rid db r hfind hauth hconf ev hev]
  dsimp only
  have hfinde : db.events.find? (fun x => x.id == r.eventId) = some ev := hev
  have hinc : incSpot r.eventId ev
      = { ev with availableSpots := ev.availableSpots + 1 } := by
    unfold incSpot
    rw [if_pos (by simpa using hevid)]
  have hE1 : (db.events.map (incSpot r.eventId)).find? (fun x => x.id == r.eventId)
      = some { ev with availableSpots := ev.availableSpots + 1 } := by
    rw [find?_map_id_eq Event.id (incSpot r.eventId) (incSpot_id r.eventId)
      db.events r.eventId, hfinde]
    simp [hinc]
  have hconf1 : ((db.reservations.map (cancelUpd rid)).find?
      (fun x => x.eventId == r.eventId && x.userId == uid
        && x.status == ReservationStatus.confirmed)) = none := by
    rw [List.find?_eq_none]
    intro x hx
    rw [List.mem_map] at hx
    obtain ⟨r2, hr2, rfl⟩ := hx
    by_cases hid : r2.id = rid
    · have hcu : cancelUpd rid r2 = { r2 with status := ReservationStatus.canceled } := by
        unfold cancelUpd
        rw [if_pos (by simpa using hid)]
      rw [hcu]
      simp
    · have hcu : cancelUpd rid r2 = r2 := by
        unfold cancelUpd
        rw [if_neg (by simpa using hid)]
      rw [hcu]
      intro hp
      simp only [Bool.and_eq_true, beq_iff_eq] at hp
      exact hid (huniq r2 hr2 hp.1.1 hp.1.2 hp.2)
  have hcreate := createReservation_ok_spec now r.eventId uid role
    { db with
      reservations := db.reservations.map (cancelUpd rid)
      events := db.events.map (incSpot r.eventId) }
    { ev with availableSpots := ev.availableSpots + 1 }
    hE1 hdate hself hconf1 (by dsimp only; omega)
  rw [hcreate]
  refine ⟨rfl, rfl, ?_⟩
  unfold findEvent
  dsimp only
  rw [find?_map_id_eq Event.id (decSpot r.eventId) (decSpot_id r.eventId)
    (db.events.map (incSpot r.eventId)) r.eventId, hE1]
  have hdec : decSpot r.eventId { ev with availableSpots := ev.availableSpots + 1 }
      = { ev with availableSpots := ev.availableSpots + 1 - 1 } := by
    unfold decSpot
    rw [if_pos (by simpa using hevid)]
  rw [Option.map_some', hdec]
  obtain ⟨i, d, m, a, c⟩ := ev
  dsimp only
  rw [show a + 1 - 1 = a from by omega]

theorem c8_cancel_then_rebook_witness :
    (cancelReservation 1 Role.user 0 c6Db).1
        = Except.ok (Reservation.mk 0 0 1 ReservationStatus.canceled)
    ∧ (createReservation 5 0 1 Role.user (cancelReservation 1 Role.user 0 c6Db).2).1
        = Except.ok (Reservation.mk 1 0 1 ReservationStatus.confirmed)
    ∧ findEvent (createReservation 5 0 1 Role.user (cancelReservation 1 Role.user 0 c6Db).2).2 0
        = some (Event.mk 0 10 2 1 0) :=
  c8_cancel_then_rebook 5 1 Role.user 0 c6Db
    (Reservation.mk 0 0 1 ReservationStatus.confirmed) (by decide) rfl rfl
    (Event.mk 0 10 2 1 0) (by decide) (by decide) (by decide) (by decide) (by decide)

/-- Claim C9: for each of the three mutating controllers, the response and
committed state are exactly those of the underlying operation whatever the
cache outcome (an invalidation failure never changes the result and never
rolls the transaction back); after a success the controller issues the
three invalidation signals — popular-events key, the event's details key,
all event-list page keys — unless the cache throws mid-way, in which case
the failure is logged; the logged flag is set exactly when the cache
failed; after a failed operation no signal is issued and nothing is
logged. -/
theorem c9_cache_invalidation (now : Int) (eid uid requesterId : Nat) (role : Role)
    (rid : Nat) (n : Int) (db : DB) (fail : CacheFailure) :
    ((createReservationHandler now eid uid role db fail).1
        = createReservation now eid uid role db
      ∧ (∀ rv, (createReservation now eid uid role db).1 = Except.ok rv →
          ((createReservationHandler now eid uid role db fail).2.1
              = [CacheSignal.delPopularEvents, CacheSignal.delEventDetails eid,
                 CacheSignal.delAllEventListPages]
            ∨ (createReservationHandler now eid uid role db fail).2.2 = true)
          ∧ ((createReservationHandler now eid uid role db fail).2.2 = true
              ↔ fail ≠ CacheFailure.ok))
      ∧ (∀ k, (createReservation now eid uid role db).1 = Except.error k →
          (createReservationHandler now eid uid role db fail).2 = ([], false)))
    ∧ ((cancelReservationHandler requesterId role rid db fail).1
        = cancelReservation requesterId role rid db
      ∧ (∀ rv, (cancelReservation requesterId role rid db).1 = Except.ok rv →
          ((cancelReservationHandler requesterId role rid db fail).2.1
              = [CacheSignal.delPopularEvents, CacheSignal.delEventDetails rv.eventId,
                 CacheSignal.delAllEventListPages]
            ∨ (cancelReservationHandler requesterId role rid db fail).2.2 = true)
          ∧ ((cancelReservationHandler requesterId role rid db fail).2.2 = true
              ↔ fail ≠ CacheFailure.ok))
      ∧ (∀ k, (cancelReservation requesterId role rid db).1 = Except.error k →
          (cancelReservationHandler requesterId role rid db fail).2 = ([], false)))
    ∧ ((resizeEventCapacityHandler requesterId role eid n db fail).1
        = resizeEventCapacity requesterId role eid n db
      ∧ ((resizeEventCapacity requesterId role eid n db).1 = Except.ok () →
          ((resizeEventCapacityHandler requesterId role eid n db fail).2.1
              = [CacheSignal.delPopularEvents, CacheSignal.delEventDetails eid,
                 CacheSignal.delAllEventListPages]
            ∨ (resizeEventCapacityHandler requesterId role eid n db fail).2.2 = true)
          ∧ ((resizeEventCapacityHandler requesterId role eid n db fail).2.2 = true
              ↔ fail ≠ CacheFailure.ok))
      ∧ (∀ k, (resizeEventCapacity requesterId role eid n db).1 = Except.error k →
          (resizeEventCapacityHandler requesterId role eid n db fail).2 = ([], false))) := by
  refine ⟨?_, ?_, ?_⟩
  · unfold createReservationHandler
    cases hres : createReservation now eid uid role db with
    | mk fst snd =>
      cases fst with
      | ok rv =>
        dsimp only
        refine ⟨rfl, ?_, ?_⟩
        · intro rv2 hrv2
          cases fail <;> simp [clearEventCaches]
        · intro k hk
          simp at hk
      | error k =>
        dsimp only
        refine ⟨rfl, ?_, ?_⟩
        · intro rv hrv
          simp at hrv
        · intro k2 hk2
          rfl
  · unfold cancelReservationHandler
    cases hres : cancelReservation requesterId role rid db with
    | mk fst snd =>
      cases fst with
      | ok rv =>
        dsimp only
        refine ⟨rfl, ?_, ?_⟩
        · intro rv2 hrv2
          simp only [Except.ok.injEq] at hrv2
          subst hrv2
          cases fail <;> simp [clearEventCaches]
        · intro k hk
          simp at hk
      | error k =>
        dsimp only
        refine ⟨rfl, ?_, ?_⟩
        · intro rv hrv
          simp at hrv
        · intro k2 hk2
          rfl
  · unfold resizeEventCapacityHandler
    cases hres : resizeEventCapacity requesterId role eid n db with
    | mk fst snd =>
      cases fst with
      | ok u =>
        dsimp only
        refine ⟨rfl, ?_, ?_⟩
        · intro hok
          cases fail <;> simp [clearEventCaches]
        · intro k hk
          simp at hk
      | error k =>
        dsimp only
        refine ⟨rfl, ?_, ?_⟩
        · intro hok
          simp at hok
        · intro k2 hk2
          rfl

theorem c9_cache_invalidation_witness :
    ((createReservationHandler 5 0 1 Role.user (DB.mk [Event.mk 0 10 2 2 0] [] 1 0)
        CacheFailure.ok).2.1
      = [CacheSignal.delPopularEvents, CacheSignal.delEventDetails 0,
         CacheSignal.delAllEventListPages]
      ∨ (createReservationHandler 5 0 1 Role.user (DB.mk [Event.mk 0 10 2 2 0] [] 1 0)
          CacheFailure.ok).2.2 = true)
    ∧ ((createReservationHandler 5 0 1 Role.user (DB.mk [Event.mk 0 10 2 2 0] [] 1 0)
          CacheFailure.ok).2.2 = true
        ↔ CacheFailure.ok ≠ CacheFailure.ok) :=
  ((c9_cache_invalidation 5 0 1 0 Role.user 0 0 (DB.mk [Event.mk 0 10 2 2 0] [] 1 0)
      CacheFailure.ok).1.2.1)
    (Reservation.mk 0 0 1 ReservationStatus.confirmed) rfl

end EMS
